import Mathlib

/-!
Shallow embedding of `src/fastTools.py` (dgellerup/FastTools).

The repository's core is the `FastqFile` / `FastaFile` record pipeline:
reading a line-oriented file, framing lines into 4-line (FASTQ) or 2-line
(FASTA) records held in a pandas `DataFrame`, optionally interleaving two
mate files, computing derived per-record columns, and serializing the frame
back to the flat line layout.

Modelling conventions:
* A file system is a finite association list from file names to the result of
  Python `readlines()` (each line keeps its trailing `'\n'`, except possibly
  the last).  gzip compression is a byte-stream transform external to the
  core, so `readlines` is modelled as the plain lookup.
* Python floats produced by `pandas.Series.mean` are modelled as exact
  rationals (`Rat`); the empty-series mean (`NaN`) gets its own value.
* Observable low-level Python failures (IndexError, pandas ValueError,
  KeyError, AttributeError, builtin FileNotFoundError) are modelled as an
  explicit error type; the source defines no typed error classes of its own.
* The serializer is modelled down to the exact list of text lines
  `pandas.to_csv` emits, including the escaping the csv writer applies under
  `quoting=csv.QUOTE_NONE` with `escapechar='\\'`: a backslash is inserted
  before every delimiter (`','`) and every escapechar (`'\'`) occurring
  inside a field.  (Line-terminator characters are also in the csv escape
  set, but universal-newline reading leaves none inside a line.)
-/

namespace FastTools

instance {ε α : Type} [DecidableEq ε] [DecidableEq α] : DecidableEq (Except ε α)
  | .ok x, .ok y => decidable_of_iff (x = y) (by simp)
  | .ok _, .error _ => isFalse (by simp)
  | .error _, .ok _ => isFalse (by simp)
  | .error x, .error y => decidable_of_iff (x = y) (by simp)

/-- Observable low-level Python failure modes of `fastTools.py`. -/
inductive FtError where
  /-- list index out of range -/
  | indexError : FtError
  /-- pandas `ValueError` (e.g. "arrays must all be same length",
      or assigning a column of the wrong length) -/
  | valueError : FtError
  /-- `KeyError` from the `qScoreDict[symbol]` lookup -/
  | keyError (symbol : Char) : FtError
  /-- `KeyError` from a missing DataFrame column -/
  | keyErrorCol (column : String) : FtError
  /-- `AttributeError` (e.g. `.strip()` on a non-string cell) -/
  | attributeError : FtError
  /-- builtin `FileNotFoundError` raised by `open()` -/
  | fileNotFound : FtError
  deriving DecidableEq

/-- A DataFrame cell: a string, a float (modelled as an exact rational),
or pandas `NaN` (the mean of an empty series). -/
inductive Val where
  | s (v : String)
  | q (v : Rat)
  | nan
  deriving DecidableEq

/-- A pandas `DataFrame`: an ordered list of named columns. -/
structure DataFrame where
  cols : List (String × List Val)
  deriving DecidableEq

/-- Column access `df[name]` (first matching column). -/
def getCol (df : DataFrame) (name : String) : Option (List Val) :=
  df.cols.lookup name

/-- pandas column assignment `df[name] = values`: replaces the column in
place when `name` is already present, otherwise appends it at the end. -/
def setCol (df : DataFrame) (name : String) (values : List Val) : DataFrame :=
  if (df.cols.lookup name).isSome then
    ⟨df.cols.map fun kv => if kv.1 == name then (kv.1, values) else kv⟩
  else
    ⟨df.cols ++ [(name, values)]⟩

/-- Strip characters satisfying `p` from both ends of a string. -/
def stripEnds (p : Char → Bool) (x : String) : String :=
  ⟨((x.data.dropWhile p).reverse.dropWhile p).reverse⟩

/-- `removeNewline` (fastTools.py:651-658): `x.strip('\n')`. -/
def removeNewline (x : String) : String :=
  stripEnds (· == '\n') x

/-- Python `str.strip()` with no argument: strip ASCII whitespace. -/
def pyStrip (x : String) : String :=
  stripEnds (fun c => c == ' ' || c == '\t' || c == '\n' ||
                      c == '\r' || c == '\x0b' || c == '\x0c') x

/-- `qScoreDict` (fastTools.py:663-667): the Phred+33 lookup table,
`'!' ↦ 0` through `'K' ↦ 42`; any other symbol is absent (a raw
`KeyError` in the source). -/
def qScoreDict : Char → Option Nat
  | '!' => some 0 | '"' => some 1 | '#' => some 2 | '$' => some 3
  | '%' => some 4 | '&' => some 5 | '\'' => some 6 | '(' => some 7
  | ')' => some 8 | '*' => some 9 | '+' => some 10 | ',' => some 11
  | '-' => some 12 | '.' => some 13 | '/' => some 14 | '0' => some 15
  | '1' => some 16 | '2' => some 17 | '3' => some 18 | '4' => some 19
  | '5' => some 20 | '6' => some 21 | '7' => some 22 | '8' => some 23
  | '9' => some 24 | ':' => some 25 | ';' => some 26 | '<' => some 27
  | '=' => some 28 | '>' => some 29 | '?' => some 30 | '@' => some 31
  | 'A' => some 32 | 'B' => some 33 | 'C' => some 34 | 'D' => some 35
  | 'E' => some 36 | 'F' => some 37 | 'G' => some 38 | 'H' => some 39
  | 'I' => some 40 | 'J' => some 41 | 'K' => some 42
  | _ => none

/-- The comprehension `[lines[i] for i in range(r, len(lines), 4)]`
(fastTools.py:132-135 and 142-145), applied after `List.drop r`:
takes the element at every fourth index, starting at index 0. -/
def every4th {α : Type} : List α → List α
  | a :: _ :: _ :: _ :: rest => a :: every4th rest
  | a :: _ => [a]
  | [] => []

/-- The comprehension `[lines[i] for i in range(r, len(lines), 2)]`
(fastTools.py:426-430), applied after `List.drop r`. -/
def every2nd {α : Type} : List α → List α
  | a :: _ :: rest => a :: every2nd rest
  | [a] => [a]
  | [] => []

/-- The paired interleave loop (fastTools.py:117-129).  The loop ranges over
the indices of `fqlines` in steps of 4 and indexes `fq2lines` at the very
same offsets: indices past the end of either list raise `IndexError`, while
surplus lines of `fq2lines` beyond `len(fqlines)` are silently ignored. -/
def interleavePaired : List String → List String → Except FtError (List String)
  | [], _ => .ok []
  | a :: b :: c :: d :: xr, y0 :: y1 :: y2 :: y3 :: yr =>
    (interleavePaired xr yr).map fun t =>
      a :: b :: c :: d :: y0 :: y1 :: y2 :: y3 :: t
  | _ :: _, _ => .error .indexError

/-- `pd.DataFrame({'Name': …, 'Seq': …, 'Direction': …, 'Qual': …})`
(fastTools.py:149-150): raises `ValueError` unless all four lists share
one length. -/
def makeFastqDF (names seqs dirs quals : List String) : Except FtError DataFrame :=
  if names.length = seqs.length ∧ names.length = dirs.length ∧
     names.length = quals.length then
    .ok ⟨[("Name", names.map .s), ("Seq", seqs.map .s),
          ("Direction", dirs.map .s), ("Qual", quals.map .s)]⟩
  else .error .valueError

/-- The four framing comprehensions plus DataFrame construction
(fastTools.py:142-150, and 132-135 for the paired branch). -/
def frameFastq (ls : List String) : Except FtError DataFrame :=
  makeFastqDF (every4th ls) (every4th (ls.drop 1))
              (every4th (ls.drop 2)) (every4th (ls.drop 3))

/-- A file system: file names mapped to their `readlines()` content. -/
structure Fs where
  entries : List (String × List String)

/-- `os.listdir()`. -/
def listdir (fs : Fs) : List String :=
  fs.entries.map Prod.fst

/-- `open(name).readlines()` resp. `gzip.open(name, 'rt').readlines()`. -/
def readlines (fs : Fs) (name : String) : Option (List String) :=
  fs.entries.lookup name

/-- Whether `pat` is a prefix of `s` (over character lists). -/
def startsWithL : List Char → List Char → Bool
  | [], _ => true
  | _ :: _, [] => false
  | p :: ps, c :: cs => p == c && startsWithL ps cs

/-- Python substring test `pat in s` (over character lists). -/
def containsL (pat : List Char) : List Char → Bool
  | [] => pat.isEmpty
  | c :: r => startsWithL pat (c :: r) || containsL pat r

/-- Python substring test `pat in s`. -/
def strContains (s pat : String) : Bool :=
  containsL pat.data s.data

/-- Python `s.replace(pat, rep)`: replace non-overlapping occurrences left to
right.  The fuel argument bounds the recursion; `s.length` steps suffice for
a non-empty pattern (the only use in the source is with `"_R1_"`/`"_R2_"`). -/
def replaceL (pat rep : List Char) : Nat → List Char → List Char
  | _, [] => []
  | 0, s => s
  | fuel + 1, c :: r =>
    if startsWithL pat (c :: r) then
      rep ++ replaceL pat rep fuel ((c :: r).drop pat.length)
    else c :: replaceL pat rep fuel r

/-- Python `s.replace(pat, rep)`. -/
def pyReplace (s pat rep : String) : String :=
  ⟨replaceL pat.data rep.data s.data.length s.data⟩

/-- Python `s.split(sep)` for a single separator character. -/
def splitChar (sep : Char) : List Char → List (List Char)
  | [] => [[]]
  | c :: r =>
    match splitChar sep r with
    | h :: t => if c == sep then [] :: h :: t else (c :: h) :: t
    | [] => [[c]]

/-- `'_'.join(fastq1.split("_")[:2])` (fastTools.py:48). -/
def sampleOf (fastq1 : String) : String :=
  String.intercalate "_" (((splitChar '_' fastq1.data).map fun l => String.mk l).take 2)

/-- The attributes a fully constructed `FastqFile` object carries. -/
structure FastqState where
  fastq1 : String
  fastq2 : String
  paired : Bool
  sample : String
  fastqDataFrame : DataFrame
  deriving DecidableEq

/-- Outcome of `FastqFile.__init__`: the early `print`-and-`return` when
`fastq1` is not in the directory listing (leaving the object without a
data frame), a fully built object, or a propagated exception. -/
inductive InitResult where
  | notFound
  | ok (st : FastqState)
  | exc (e : FtError)
  deriving DecidableEq

/-- Mate resolution (fastTools.py:52-98): decides the final
`(self.fastq1, self.fastq2, self.paired)` triple.  Note the `_R1_` branch is
tested before the `_R2_` branch, and the `_R2_` branch swaps the two names. -/
def resolveMates (fs : Fs) (fastq1 : String) (fastq2 : Option String)
    (paired : Bool) : String × String × Bool :=
  match fastq2 with
  | some f2 =>
    if (listdir fs).contains f2 then (fastq1, f2, true)
    else (fastq1, "None", false)
  | none =>
    if paired then
      if strContains fastq1 "_R1_" then
        let rep := pyReplace fastq1 "_R1_" "_R2_"
        if (listdir fs).contains rep then (fastq1, rep, paired)
        else (fastq1, "None", false)
      else if strContains fastq1 "_R2_" then
        let holder := pyReplace fastq1 "_R2_" "_R1_"
        if (listdir fs).contains holder then (holder, fastq1, paired)
        else (fastq1, "None", false)
      else (fastq1, "None", false)
    else (fastq1, "None", false)

/-- `FastqFile.__init__` (fastTools.py:37-150). -/
def fastqInit (fs : Fs) (fastq1 : String) (fastq2 : Option String)
    (paired : Bool) : InitResult :=
  if ¬ (listdir fs).contains fastq1 then .notFound
  else
    let sample := sampleOf fastq1
    match resolveMates fs fastq1 fastq2 paired with
    | (f1, f2, p) =>
      match readlines fs f1 with
      | none => .exc .fileNotFound
      | some fqlines =>
        if p then
          match readlines fs f2 with
          | none => .exc .fileNotFound
          | some fq2lines =>
            match interleavePaired fqlines fq2lines with
            | .ok plines =>
              match frameFastq plines with
              | .ok df => .ok ⟨f1, f2, p, sample, df⟩
              | .error e => .exc e
            | .error e => .exc e
        else
          match frameFastq fqlines with
          | .ok df => .ok ⟨f1, f2, p, sample, df⟩
          | .error e => .exc e

/-- `pandas.Series.mean`: `NaN` on an empty series, the exact rational mean
otherwise. -/
def pdMean (l : List Nat) : Val :=
  if l.isEmpty then .nan else .q ((l.sum : Rat) / (l.length : Rat))

/-- `[qScoreDict[symbol] for symbol in item.strip()]` (fastTools.py:184):
a symbol outside the table raises `KeyError`. -/
def lookupScores : List Char → Except FtError (List Nat)
  | [] => .ok []
  | c :: r =>
    match qScoreDict c with
    | some v => (lookupScores r).map (v :: ·)
    | none => .error (.keyError c)

/-- The body of the `for item in quallist` loop (fastTools.py:183-188). -/
def avgQualVals : List Val → Except FtError (List Val)
  | [] => .ok []
  | .s item :: r =>
    match lookupScores (pyStrip item).data with
    | .ok scores => (avgQualVals r).map (pdMean scores :: ·)
    | .error e => .error e
  | _ :: _ => .error .attributeError

/-- `FastqFile.averageQuality` (fastTools.py:168-191). -/
def averageQuality (df : DataFrame) : Except FtError DataFrame :=
  match getCol df "Qual" with
  | none => .error (.keyErrorCol "Qual")
  | some quallist =>
    match avgQualVals quallist with
    | .ok qualscores => .ok (setCol df "Avg Qual" qualscores)
    | .error e => .error e

/-- The comparison `longdf.sort_values('id')` sorts by. -/
def idLe (p q : Val × Nat) : Prop := p.2 ≤ q.2

instance : DecidableRel idLe := fun p q => Nat.decLe p.2 q.2

instance : IsTotal (Val × Nat) idLe := ⟨fun p q => Nat.le_total p.2 q.2⟩

instance : IsTrans (Val × Nat) idLe := ⟨fun _ _ _ h1 h2 => Nat.le_trans h1 h2⟩

/-- `longdf.sort_values('id')` (fastTools.py:384): a comparison sort on the
`id` key; the keys in every call are pairwise distinct, so any comparison
sort produces the same list. -/
def sortById (l : List (Val × Nat)) : List (Val × Nat) :=
  List.insertionSort idLe l

/-- `longdf['line'].apply(removeNewline)` (fastTools.py:393): `removeNewline`
is `x.strip('\n')`, which on a non-string cell would raise
`AttributeError`. -/
def stripLines : List Val → Except FtError (List String)
  | [] => .ok []
  | .s v :: r => (stripLines r).map (removeNewline v :: ·)
  | _ :: _ => .error .attributeError

/-- The escaping `to_csv` performs on each field under
`quoting=csv.QUOTE_NONE` with `escapechar='\\'` and the default `','`
delimiter (fastTools.py:396, 593): a backslash is written before every
`','` and every `'\'`.  The csv escape set also contains the line-terminator
characters, but a line produced by universal-newline `readlines()` contains
none in its interior, and `removeNewline` has stripped its ends. -/
def csvEscapeList : List Char → List Char
  | [] => []
  | c :: r => (if c == ',' || c == '\\' then ['\\', c] else [c]) ++ csvEscapeList r

/-- The csv `QUOTE_NONE` escaping applied to one emitted line. -/
def csvEscape (s : String) : String :=
  ⟨csvEscapeList s.data⟩

/-- Outcome of `writeFASTQ`/`writeFASTA`: the message *returned* (not raised)
when a column is missing, the emitted lines, or a propagated exception. -/
inductive WriteResult where
  | message (s : String)
  | out (lines : List String)
  | exc (e : FtError)
  deriving DecidableEq

/-- `FastqFile.writeFASTQ` (fastTools.py:342-396), modelled down to the list
of text lines handed to the `to_csv` byte sink.  The pseudo-ids are
`range(r, len(namedf)*4, 4)` for `r = 0,1,2,3`; assigning an id column whose
length differs from a column's length would raise a pandas `ValueError`. -/
def writeFASTQlines (df : DataFrame) : WriteResult :=
  match getCol df "Name", getCol df "Seq", getCol df "Direction", getCol df "Qual" with
  | some nameCol, some seqCol, some dirCol, some qualCol =>
    let m := nameCol.length
    if seqCol.length = m ∧ dirCol.length = m ∧ qualCol.length = m then
      let longdf := nameCol.zip (List.range' 0 m 4) ++ seqCol.zip (List.range' 1 m 4) ++
                    dirCol.zip (List.range' 2 m 4) ++ qualCol.zip (List.range' 3 m 4)
      match stripLines ((sortById longdf).map Prod.fst) with
      | .ok lines => .out (lines.map csvEscape)
      | .error e => .exc e
    else .exc .valueError
  | _, _, _, _ => .message "This doesn't appear to be a FastqFile object."

/-- The attributes a fully constructed `FastaFile` object carries. -/
structure FastaState where
  fasta : String
  fastaDataFrame : DataFrame
  deriving DecidableEq

/-- `FastaFile.__init__` (fastTools.py:410-432).  There is no directory
check here: a missing path raises the builtin `FileNotFoundError` from
`open()`.  The two framing loops `.strip()` each line as it is stored. -/
def fastaInit (fs : Fs) (fasta : String) : Except FtError FastaState :=
  match readlines fs fasta with
  | none => .error .fileNotFound
  | some falines =>
    let names := (every2nd falines).map pyStrip
    let seqs := (every2nd (falines.drop 1)).map pyStrip
    if names.length = seqs.length then
      .ok ⟨fasta, ⟨[("Name", names.map .s), ("Seq", seqs.map .s)]⟩⟩
    else .error .valueError

/-- `FastaFile.writeFASTA` (fastTools.py:545-593).  The source reuses the
step-4 pseudo-ids (`range(0, len*4, 4)` and `range(1, len*4, 4)`) for its
two columns. -/
def writeFASTAlines (df : DataFrame) : WriteResult :=
  match getCol df "Name", getCol df "Seq" with
  | some nameCol, some seqCol =>
    let m := nameCol.length
    if seqCol.length = m then
      let longdf := nameCol.zip (List.range' 0 m 4) ++ seqCol.zip (List.range' 1 m 4)
      match stripLines ((sortById longdf).map Prod.fst) with
      | .ok lines => .out (lines.map csvEscape)
      | .error e => .exc e
    else .exc .valueError
  | _, _ => .message "This doesn't appear to be a FastaFile object."

/-- Record `i` of a flat FASTQ line list: the four lines at flat positions
`4*i … 4*i+3`. -/
def fqRecord (ls : List String) (i : Nat) :
    Option String × Option String × Option String × Option String :=
  (ls[4*i]?, ls[4*i+1]?, ls[4*i+2]?, ls[4*i+3]?)

/-- Record `i` of a FASTQ `DataFrame`: the cells at row `i` of the four
format columns. -/
def dfFqRecord (df : DataFrame) (i : Nat) :
    Option Val × Option Val × Option Val × Option Val :=
  (((getCol df "Name").getD [])[i]?, ((getCol df "Seq").getD [])[i]?,
   ((getCol df "Direction").getD [])[i]?, ((getCol df "Qual").getD [])[i]?)

/-- A flat-line record, wrapped the way framing stores it in the table. -/
def asVals (r : Option String × Option String × Option String × Option String) :
    Option Val × Option Val × Option Val × Option Val :=
  (r.1.map Val.s, r.2.1.map Val.s, r.2.2.1.map Val.s, r.2.2.2.map Val.s)

/-- `len(self.fastqDataFrame)` (fastTools.py:153-154, 164-165): pandas row
count, i.e. the length of the first column. -/
def numReads (df : DataFrame) : Nat :=
  match df.cols with
  | [] => 0
  | (_, col) :: _ => col.length

/-- Projection for stating facts about a successful `FastqFile.__init__`:
the `(fastq1, fastq2, paired)` attributes. -/
def mateFields : InitResult → Option (String × String × Bool)
  | .ok st => some (st.fastq1, st.fastq2, st.paired)
  | _ => none

/-- Strict version of the sort key comparison: the pseudo-ids in every
`writeFASTQ` call are pairwise distinct, so the sorted list is unique. -/
def idLt (p q : Val × Nat) : Prop := p.2 < q.2

instance : IsAntisymm (Val × Nat) idLt :=
  ⟨fun _ _ h1 h2 => absurd h1 (Nat.lt_asymm h2)⟩

/-- The data frame `frameFastq` builds when the framing check passes. -/
def frameDF (ls : List String) : DataFrame :=
  ⟨[("Name", (every4th ls).map .s), ("Seq", (every4th (ls.drop 1)).map .s),
    ("Direction", (every4th (ls.drop 2)).map .s),
    ("Qual", (every4th (ls.drop 3)).map .s)]⟩

/-- `list(df.columns)`: the table's schema in column order. -/
def schema (df : DataFrame) : List String :=
  df.cols.map Prod.fst

/-! ### Concrete example data (the spec's end-to-end scenario and variants) -/

/-- The spec's 2-record FASTQ example file, as `readlines` returns it. -/
def exLines : List String :=
  ["@r1\n", "ACGT\n", "+\n", "!!!!\n", "@r2\n", "TTTT\n", "+\n", "KKKK\n"]

/-- A second 2-record file, used as a reverse mate. -/
def exLines2 : List String :=
  ["@r1\n", "GGGG\n", "+\n", "JJJJ\n", "@r2\n", "CCCC\n", "+\n", "IIII\n"]

/-- A 1-record FASTQ file. -/
def oneRec : List String := ["@m\n", "AAAA\n", "+\n", "!!!!\n"]

/-- A directory holding only the example file. -/
def exFs : Fs := ⟨[("sampleA_S1_R1_001.fastq", exLines)]⟩

/-- A directory holding an odd (3-line) FASTA file. -/
def badFaFs : Fs := ⟨[("bad.fasta", [">n1\n", "ACGT\n", ">n2\n"])]⟩

/-- A valid 1-record FASTQ file whose quality line contains `','`
(Phred+33 quality 11, an ordinary quality character). -/
def commaLines : List String := ["@r1\n", "ACGT\n", "+\n", "FF,F\n"]

/-- A directory holding the comma-quality file. -/
def commaFs : Fs := ⟨[("comma.fastq", commaLines)]⟩

/-- Projection for stating facts about the serialization of a successfully
constructed `FastqFile`. -/
def initWrite : InitResult → Option WriteResult
  | .ok st => some (writeFASTQlines st.fastqDataFrame)
  | _ => none

/-- A directory for a file whose name contains both mate tokens, together
with the `_R1_` counterpart obtained by substituting its `_R2_` token. -/
def dualTokenFs : Fs :=
  ⟨[("a_R1_b_R2_c.fastq", oneRec), ("a_R1_b_R1_c.fastq", oneRec)]⟩

/-- A directory holding a reverse-named file and its forward mate. -/
def r2Fs : Fs := ⟨[("s_R2_001.fastq", exLines2), ("s_R1_001.fastq", exLines)]⟩

/-- A table whose `Qual` column holds the spec's two quality strings, with
the line terminators the framing keeps attached. -/
def qualOnlyDF : DataFrame := ⟨[("Qual", [.s "!!!!\n", .s "KKKK\n"])]⟩

/-- The frame of the example file with its columns rotated, so its schema
does not start with `(Name, Seq, Direction, Qual)`. -/
def wrongOrderDF : DataFrame :=
  ⟨[("Qual", (every4th (exLines.drop 3)).map .s),
    ("Name", (every4th exLines).map .s),
    ("Seq", (every4th (exLines.drop 1)).map .s),
    ("Direction", (every4th (exLines.drop 2)).map .s)]⟩

/-- A table missing the `Qual` column. -/
def missingQualDF : DataFrame :=
  ⟨[("Name", [.s "@r1\n"]), ("Seq", [.s "ACGT\n"]), ("Direction", [.s "+\n"])]⟩

/-- The frame of the example file together with its computed `Avg Qual`
column. -/
def exAvgDF : DataFrame :=
  ⟨[("Name", [.s "@r1\n", .s "@r2\n"]), ("Seq", [.s "ACGT\n", .s "TTTT\n"]),
    ("Direction", [.s "+\n", .s "+\n"]), ("Qual", [.s "!!!!\n", .s "KKKK\n"]),
    ("Avg Qual", [.q 0, .q 42])]⟩

/-! ### Structural lemmas about the framing comprehensions -/

theorem every4th_cons4 {α : Type} (a b c d : α) (rest : List α) :
    every4th (a :: b :: c :: d :: rest) = a :: every4th rest := rfl

theorem every4th_cons3 {α : Type} (a b c : α) (rest : List α) :
    every4th (a :: b :: c :: rest) = a :: every4th (rest.drop 1) := by
  cases rest <;> rfl

theorem every4th_cons2 {α : Type} (a b : α) (rest : List α) :
    every4th (a :: b :: rest) = a :: every4th (rest.drop 2) := by
  rcases rest with _ | ⟨c, _ | ⟨d, r⟩⟩ <;> rfl

theorem every4th_cons1 {α : Type} (a : α) (rest : List α) :
    every4th (a :: rest) = a :: every4th (rest.drop 3) := by
  rcases rest with _ | ⟨b, _ | ⟨c, _ | ⟨d, r⟩⟩⟩ <;> rfl

theorem every4th_length {α : Type} :
    ∀ l : List α, (every4th l).length = (l.length + 3) / 4
  | [] => by simp [every4th]
  | [_] => by simp [every4th]
  | [_, _] => by simp [every4th]
  | [_, _, _] => by simp [every4th]
  | a :: b :: c :: d :: rest => by
    rw [every4th_cons4]
    simp only [List.length_cons, every4th_length rest]
    omega

theorem every4th_map {α β : Type} (f : α → β) :
    ∀ l : List α, every4th (l.map f) = (every4th l).map f
  | [] => rfl
  | [_] => rfl
  | [_, _] => rfl
  | [_, _, _] => rfl
  | a :: b :: c :: d :: rest => by
    simp only [List.map_cons, every4th_cons4, every4th_map f rest]

theorem every4th_getElem? {α : Type} :
    ∀ (l : List α) (i : Nat), (every4th l)[i]? = l[4 * i]?
  | [], i => by simp [every4th]
  | [a], i => by
    rcases i with _ | j
    · simp [show every4th [a] = [a] from rfl]
    · rw [show every4th [a] = [a] from rfl]
      refine (List.getElem?_eq_none (by simp)).trans ?_
      exact (List.getElem?_eq_none (by simp; omega)).symm
  | [a, b], i => by
    rcases i with _ | j
    · simp [show every4th [a, b] = [a] from rfl]
    · rw [show every4th [a, b] = [a] from rfl]
      refine (List.getElem?_eq_none (by simp)).trans ?_
      exact (List.getElem?_eq_none (by simp; omega)).symm
  | [a, b, c], i => by
    rcases i with _ | j
    · simp [show every4th [a, b, c] = [a] from rfl]
    · rw [show every4th [a, b, c] = [a] from rfl]
      refine (List.getElem?_eq_none (by simp)).trans ?_
      exact (List.getElem?_eq_none (by simp; omega)).symm
  | a :: b :: c :: d :: rest, i => by
    rcases i with _ | j
    · simp [every4th_cons4]
    · rw [every4th_cons4, List.getElem?_cons_succ, every4th_getElem? rest j,
        show 4 * (j + 1) = 4 + 4 * j from by ring, ← List.getElem?_drop]
      rfl

theorem every2nd_length {α : Type} :
    ∀ l : List α, (every2nd l).length = (l.length + 1) / 2
  | [] => by simp [every2nd]
  | [_] => by simp [every2nd]
  | a :: b :: rest => by
    rw [show every2nd (a :: b :: rest) = a :: every2nd rest from rfl]
    simp only [List.length_cons, every2nd_length rest]
    omega

/-! ### Lemmas about serialization building blocks -/

theorem stripLines_map_s :
    ∀ ls : List String, stripLines (ls.map Val.s) = .ok (ls.map removeNewline)
  | [] => rfl
  | a :: r => by
    simp only [List.map_cons, stripLines, stripLines_map_s r, Except.map]

theorem contains_of_lookup {β : Type} :
    ∀ (es : List (String × β)) (a : String) (v : β),
      es.lookup a = some v → (es.map Prod.fst).contains a = true
  | [], a, v, h => by simp [List.lookup] at h
  | (k, w) :: es, a, v, h => by
    rw [List.lookup] at h
    cases hak : (a == k) with
    | true =>
      simp only [List.map_cons, List.contains_cons]
      rw [hak]
      rfl
    | false =>
      rw [hak] at h
      simp only [List.map_cons, List.contains_cons]
      rw [contains_of_lookup es a v h, Bool.or_true]

/-! ### The sort in `writeFASTQ` restores the flat line order -/

theorem sortById_eq {L I : List (Val × Nat)} (hperm : L.Perm I)
    (hs : I.Pairwise idLt) : sortById L = I := by
  have hp : (sortById L).Perm I := (List.perm_insertionSort idLe L).trans hperm
  have hle : (sortById L).Pairwise idLe := List.sorted_insertionSort idLe L
  have hneI : I.Pairwise (fun p q : Val × Nat => p.2 ≠ q.2) :=
    hs.imp fun h => Nat.ne_of_lt h
  have hne : (sortById L).Pairwise (fun p q : Val × Nat => p.2 ≠ q.2) :=
    (hp.pairwise_iff fun h => Ne.symm h).mpr hneI
  have hlt : (sortById L).Pairwise idLt :=
    (hle.and hne).imp fun h => Nat.lt_of_le_of_ne h.1 h.2
  exact List.eq_of_perm_of_sorted hp hlt hs

theorem pairwise_idLt_zip (vs : List Val) (off m : Nat) (h : vs.length = m) :
    (vs.zip (List.range' off m 1)).Pairwise idLt := by
  have hkeys : (vs.zip (List.range' off m 1)).map Prod.snd = List.range' off m 1 :=
    List.map_snd_zip _ _ (by simp [h])
  have hr : (List.range' off m 1).Pairwise (· < ·) := List.pairwise_lt_range' off m
  rw [← hkeys] at hr
  have h2 := List.pairwise_map.mp hr
  exact h2

theorem perm_block {α : Type} (p1 p2 p3 p4 : α) (T1 T2 T3 T4 R : List α)
    (h : (T1 ++ T2 ++ T3 ++ T4).Perm R) :
    ((p1 :: T1) ++ (p2 :: T2) ++ (p3 :: T3) ++ (p4 :: T4)).Perm
      (p1 :: p2 :: p3 :: p4 :: R) := by
  have e1 : ((p1 :: T1) ++ (p2 :: T2) ++ (p3 :: T3) ++ (p4 :: T4)) =
      p1 :: (T1 ++ (p2 :: (T2 ++ (p3 :: (T3 ++ (p4 :: T4)))))) := by simp
  rw [e1]
  refine List.Perm.cons p1 (List.perm_middle.trans ?_)
  refine List.Perm.cons p2 ?_
  have e2 : T1 ++ (T2 ++ (p3 :: (T3 ++ (p4 :: T4)))) =
      (T1 ++ T2) ++ (p3 :: (T3 ++ (p4 :: T4))) := by simp
  rw [e2]
  refine List.perm_middle.trans (List.Perm.cons p3 ?_)
  have e3 : (T1 ++ T2) ++ (T3 ++ (p4 :: T4)) = ((T1 ++ T2) ++ T3) ++ (p4 :: T4) := by
    simp
  rw [e3]
  exact List.perm_middle.trans (List.Perm.cons p4 h)

theorem tagged_perm {α : Type} (n : Nat) :
    ∀ (ls : List α) (off : Nat), ls.length = 4 * n →
      ((every4th ls).zip (List.range' off n 4) ++
       (every4th (ls.drop 1)).zip (List.range' (off + 1) n 4) ++
       (every4th (ls.drop 2)).zip (List.range' (off + 2) n 4) ++
       (every4th (ls.drop 3)).zip (List.range' (off + 3) n 4)).Perm
      (ls.zip (List.range' off (4 * n) 1)) := by
  induction n with
  | zero =>
    intro ls off h
    have : ls = [] := List.eq_nil_of_length_eq_zero (by omega)
    subst this
    simp [every4th]
  | succ n ih =>
    intro ls off h
    rcases ls with _ | ⟨a, _ | ⟨b, _ | ⟨c, _ | ⟨d, rest⟩⟩⟩⟩
    · simp at h
    · simp at h; omega
    · simp at h; omega
    · simp at h; omega
    have hrest : rest.length = 4 * n := by simp at h; omega
    have key : ((a :: b :: c :: d :: rest).zip (List.range' off (4 * (n + 1)) 1)) =
        (a, off) :: (b, off + 1) :: (c, off + 2) :: (d, off + 3) ::
          (rest.zip (List.range' (off + 4) (4 * n) 1)) := by
      rw [show 4 * (n + 1) = 4 * n + 1 + 1 + 1 + 1 from by ring]
      simp only [List.range'_succ, List.zip_cons_cons]
    rw [key,
        show (a :: b :: c :: d :: rest).drop 1 = b :: c :: d :: rest from rfl,
        show (a :: b :: c :: d :: rest).drop 2 = c :: d :: rest from rfl,
        show (a :: b :: c :: d :: rest).drop 3 = d :: rest from rfl,
        every4th_cons4, every4th_cons3, every4th_cons2, every4th_cons1,
        List.range'_succ, List.range'_succ, List.range'_succ, List.range'_succ,
        List.zip_cons_cons, List.zip_cons_cons, List.zip_cons_cons,
        List.zip_cons_cons]
    exact perm_block _ _ _ _ _ _ _ _ _ (ih rest (off + 4) hrest)

theorem frame_lengths (ls : List String) (n : Nat) (h : ls.length = 4 * n) :
    (every4th ls).length = n ∧ (every4th (ls.drop 1)).length = n ∧
    (every4th (ls.drop 2)).length = n ∧ (every4th (ls.drop 3)).length = n := by
  have l0 := every4th_length ls
  have l1 := every4th_length (ls.drop 1)
  have l2 := every4th_length (ls.drop 2)
  have l3 := every4th_length (ls.drop 3)
  simp only [List.length_drop, h] at l0 l1 l2 l3
  refine ⟨by omega, by omega, by omega, by omega⟩

theorem frame_ok (ls : List String) (n : Nat) (h : ls.length = 4 * n) :
    frameFastq ls = .ok (frameDF ls) := by
  obtain ⟨e0, e1, e2, e3⟩ := frame_lengths ls n h
  unfold frameFastq makeFastqDF
  rw [if_pos ⟨by omega, by omega, by omega⟩]
  rfl

theorem csvEscapeList_of_clean :
    ∀ l : List Char, (∀ c ∈ l, (c == ',' || c == '\\') = false) →
      csvEscapeList l = l
  | [], _ => rfl
  | c :: r, h => by
    have hc : (c == ',' || c == '\\') = false := h c (List.mem_cons_self c r)
    simp only [csvEscapeList, hc, Bool.false_eq_true, if_false,
      List.singleton_append, List.cons.injEq, true_and]
    exact csvEscapeList_of_clean r fun x hx => h x (List.mem_cons_of_mem c hx)

theorem mem_stripEnds (p : Char → Bool) (s : String) (c : Char)
    (h : c ∈ (stripEnds p s).data) : c ∈ s.data := by
  have h1 : c ∈ (s.data.dropWhile p).reverse.dropWhile p := by
    simpa [stripEnds, List.mem_reverse] using h
  have h2 : c ∈ (s.data.dropWhile p).reverse :=
    (List.dropWhile_sublist _).subset h1
  have h3 : c ∈ s.data.dropWhile p := by simpa using h2
  exact (List.dropWhile_sublist _).subset h3

theorem csvEscape_removeNewline_of_clean (l : String)
    (h : ∀ c ∈ l.data, (c == ',' || c == '\\') = false) :
    csvEscape (removeNewline l) = removeNewline l := by
  unfold csvEscape
  rw [csvEscapeList_of_clean]
  intro c hc
  exact h c (mem_stripEnds _ l c hc)

theorem writeFrame (ls : List String) (n : Nat) (h : ls.length = 4 * n) :
    writeFASTQlines (frameDF ls) = .out ((ls.map removeNewline).map csvEscape) := by
  obtain ⟨e0, e1, e2, e3⟩ := frame_lengths ls n h
  have hgn : getCol (frameDF ls) "Name" = some ((every4th ls).map Val.s) := rfl
  have hgs : getCol (frameDF ls) "Seq" = some ((every4th (ls.drop 1)).map Val.s) := rfl
  have hgd : getCol (frameDF ls) "Direction" =
      some ((every4th (ls.drop 2)).map Val.s) := rfl
  have hgq : getCol (frameDF ls) "Qual" = some ((every4th (ls.drop 3)).map Val.s) := rfl
  have hT1 : (every4th ls).map Val.s = every4th (ls.map Val.s) :=
    (every4th_map Val.s ls).symm
  have hT2 : (every4th (ls.drop 1)).map Val.s = every4th ((ls.map Val.s).drop 1) := by
    rw [← List.map_drop, every4th_map]
  have hT3 : (every4th (ls.drop 2)).map Val.s = every4th ((ls.map Val.s).drop 2) := by
    rw [← List.map_drop, every4th_map]
  have hT4 : (every4th (ls.drop 3)).map Val.s = every4th ((ls.map Val.s).drop 3) := by
    rw [← List.map_drop, every4th_map]
  have hlenv : (ls.map Val.s).length = 4 * n := by simp [h]
  have hperm := tagged_perm n (ls.map Val.s) 0 hlenv
  have hpair := pairwise_idLt_zip (ls.map Val.s) 0 (4 * n) hlenv
  have hsort : sortById
      (((every4th ls).map Val.s).zip (List.range' 0 n 4) ++
       ((every4th (ls.drop 1)).map Val.s).zip (List.range' 1 n 4) ++
       ((every4th (ls.drop 2)).map Val.s).zip (List.range' 2 n 4) ++
       ((every4th (ls.drop 3)).map Val.s).zip (List.range' 3 n 4)) =
      (ls.map Val.s).zip (List.range' 0 (4 * n) 1) := by
    rw [hT1, hT2, hT3, hT4]
    refine sortById_eq ?_ hpair
    have h01 : (0 : Nat) + 1 = 1 := rfl
    have h02 : (0 : Nat) + 2 = 2 := rfl
    have h03 : (0 : Nat) + 3 = 3 := rfl
    rw [← h01, ← h02, ← h03]
    exact hperm
  have hfst : ((ls.map Val.s).zip (List.range' 0 (4 * n) 1)).map Prod.fst =
      ls.map Val.s :=
    List.map_fst_zip _ _ (by simp [h])
  simp only [writeFASTQlines, hgn, hgs, hgd, hgq, List.length_map, e0, e1, e2, e3,
    and_self, if_pos, hsort, hfst, stripLines_map_s]

/-- C1 (amended): for every valid FASTQ input file whose line count is a
multiple of 4 and none of whose lines contains a `','` or `'\'` — the
characters the csv sink backslash-escapes — serializing the table framed
from that file (`writeFASTQ` on the `FastqFile` built from the path, with no
derived columns) reproduces the original file's line sequence byte for byte
up to line-terminator normalization: the emitted lines are exactly the
original lines with their terminators stripped. -/
theorem c1_fastq_round_trip (fs : Fs) (path : String) (ls : List String) (n : Nat)
    (hread : readlines fs path = some ls) (hlen : ls.length = 4 * n)
    (hclean : ∀ l ∈ ls, ∀ c ∈ l.data, (c == ',' || c == '\\') = false) :
    ∃ st, fastqInit fs path none false = .ok st ∧
      writeFASTQlines st.fastqDataFrame = .out (ls.map removeNewline) := by
  have hc : (listdir fs).contains path = true := contains_of_lookup _ _ _ hread
  have hesc : (ls.map removeNewline).map csvEscape = ls.map removeNewline := by
    rw [List.map_map]
    refine List.map_congr_left fun l hl => ?_
    exact csvEscape_removeNewline_of_clean l (hclean l hl)
  refine ⟨⟨path, "None", false, sampleOf path, frameDF ls⟩, ?_, ?_⟩
  · simp only [fastqInit, hc, not_true, resolveMates, hread, frame_ok ls n hlen,
      Bool.false_eq_true, if_false, reduceCtorEq]
  · rw [writeFrame ls n hlen, hesc]

/-! ### The interleave loop places mates at alternating record positions -/

theorem cons4_of_length {α : Type} :
    ∀ (xs : List α) (m : Nat), xs.length = m + 4 →
      ∃ a b c d t, xs = a :: b :: c :: d :: t ∧ t.length = m
  | [], m, h => by simp only [List.length_nil] at h; omega
  | [a], m, h => by simp only [List.length_cons, List.length_nil] at h; omega
  | [a, b], m, h => by simp only [List.length_cons, List.length_nil] at h; omega
  | [a, b, c], m, h => by simp only [List.length_cons, List.length_nil] at h; omega
  | a :: b :: c :: d :: t, m, h =>
    ⟨a, b, c, d, t, rfl, by simp only [List.length_cons] at h; omega⟩

theorem getElem?_cons8 {α : Type} (a b c d e f g h : α) (t : List α) (k : Nat) :
    (a :: b :: c :: d :: e :: f :: g :: h :: t)[8 + k]? = t[k]? := by
  rw [← List.getElem?_drop]
  rfl

theorem getElem?_cons4 {α : Type} (a b c d : α) (t : List α) (k : Nat) :
    (a :: b :: c :: d :: t)[4 + k]? = t[k]? := by
  rw [← List.getElem?_drop]
  rfl

theorem fqRecord_cons8 (a b c d e f g h : String) (t : List String) (i : Nat) :
    fqRecord (a :: b :: c :: d :: e :: f :: g :: h :: t) (i + 2) = fqRecord t i := by
  unfold fqRecord
  rw [show 4 * (i + 2) = 8 + 4 * i from by ring]
  simp only [Nat.add_assoc]
  rw [getElem?_cons8, getElem?_cons8, getElem?_cons8, getElem?_cons8]

theorem fqRecord_cons4 (a b c d : String) (t : List String) (i : Nat) :
    fqRecord (a :: b :: c :: d :: t) (i + 1) = fqRecord t i := by
  unfold fqRecord
  rw [show 4 * (i + 1) = 4 + 4 * i from by ring]
  simp only [Nat.add_assoc]
  rw [getElem?_cons4, getElem?_cons4, getElem?_cons4, getElem?_cons4]

theorem interleave_records (n : Nat) :
    ∀ xs ys : List String, xs.length = 4 * n → ys.length = 4 * n →
      ∃ zs, interleavePaired xs ys = .ok zs ∧ zs.length = 8 * n ∧
        ∀ i, i < n →
          fqRecord zs (2 * i) = fqRecord xs i ∧
          fqRecord zs (2 * i + 1) = fqRecord ys i := by
  induction n with
  | zero =>
    intro xs ys hx hy
    have hx0 : xs = [] := List.eq_nil_of_length_eq_zero (by omega)
    subst hx0
    exact ⟨[], rfl, by simp, fun i hi => absurd hi (by omega)⟩
  | succ n ih =>
    intro xs ys hx hy
    obtain ⟨a, b, c, d, xr, rfl, hxr⟩ := cons4_of_length xs (4 * n) (by omega)
    obtain ⟨e, f, g, h2, yr, rfl, hyr⟩ := cons4_of_length ys (4 * n) (by omega)
    obtain ⟨zr, hz, hlen, hrec⟩ := ih xr yr hxr hyr
    refine ⟨a :: b :: c :: d :: e :: f :: g :: h2 :: zr, ?_,
      by simp only [List.length_cons, hlen]; omega, ?_⟩
    · rw [show interleavePaired (a :: b :: c :: d :: xr) (e :: f :: g :: h2 :: yr) =
          (interleavePaired xr yr).map
            (fun t => a :: b :: c :: d :: e :: f :: g :: h2 :: t) from rfl, hz]
      rfl
    · intro i hi
      rcases i with _ | j
      · exact ⟨by simp [fqRecord], by simp [fqRecord]⟩
      · have hj : j < n := by omega
        obtain ⟨he, ho⟩ := hrec j hj
        constructor
        · rw [show 2 * (j + 1) = 2 * j + 2 from by ring, fqRecord_cons8,
              fqRecord_cons4]
          exact he
        · rw [show 2 * (j + 1) + 1 = (2 * j + 1) + 2 from by ring, fqRecord_cons8,
              fqRecord_cons4]
          exact ho

/-- C3: for every pair of framed mate record streams of `n` records each
(`4 n` raw lines), the interleave loop succeeds and produces a stream of
exactly `2 n` records in which the record at position `2 i` is record `i`
of the forward stream and the record at position `2 i + 1` is record `i`
of the reverse stream, for every `i < n`. -/
theorem c3_interleave_invariant (xs ys : List String) (n : Nat)
    (hx : xs.length = 4 * n) (hy : ys.length = 4 * n) :
    ∃ zs, interleavePaired xs ys = .ok zs ∧ (every4th zs).length = 2 * n ∧
      ∀ i, i < n →
        fqRecord zs (2 * i) = fqRecord xs i ∧
        fqRecord zs (2 * i + 1) = fqRecord ys i := by
  obtain ⟨zs, h1, h2, h3⟩ := interleave_records n xs ys hx hy
  exact ⟨zs, h1, by rw [every4th_length, h2]; omega, h3⟩

/-! ### Mate discovery, swapping, and the paired constructor -/

theorem dfFqRecord_frameDF (zs : List String) (i : Nat) :
    dfFqRecord (frameDF zs) i = asVals (fqRecord zs i) := by
  have hn : getCol (frameDF zs) "Name" = some ((every4th zs).map Val.s) := rfl
  have hs : getCol (frameDF zs) "Seq" = some ((every4th (zs.drop 1)).map Val.s) := rfl
  have hd : getCol (frameDF zs) "Direction" =
      some ((every4th (zs.drop 2)).map Val.s) := rfl
  have hq : getCol (frameDF zs) "Qual" = some ((every4th (zs.drop 3)).map Val.s) := rfl
  unfold dfFqRecord asVals fqRecord
  rw [hn, hs, hd, hq]
  simp only [Option.getD_some, List.getElem?_map, every4th_getElem?,
    List.getElem?_drop]
  rw [show 1 + 4 * i = 4 * i + 1 from by omega,
      show 2 + 4 * i = 4 * i + 2 from by omega,
      show 3 + 4 * i = 4 * i + 3 from by omega]

/-- C10 (amended): when `paired=True`, no explicit second file is given, the
first file name contains `_R2_` and not `_R1_`, and the `_R1_` counterpart
(obtained by substituting `_R2_`) is present in the directory listing, the
constructor swaps the two paths: the `_R1_` file becomes `fastq1` and its
records occupy the even record positions of the interleaved table. -/
theorem c10_r2_swap (fs : Fs) (fastq1 : String) (xs ys : List String) (n : Nat)
    (hnoR1 : strContains fastq1 "_R1_" = false)
    (hR2 : strContains fastq1 "_R2_" = true)
    (hself : readlines fs fastq1 = some ys)
    (hmate : readlines fs (pyReplace fastq1 "_R2_" "_R1_") = some xs)
    (hx : xs.length = 4 * n) (hy : ys.length = 4 * n) :
    ∃ st zs, fastqInit fs fastq1 none true = .ok st ∧
      st.fastq1 = pyReplace fastq1 "_R2_" "_R1_" ∧ st.fastq2 = fastq1 ∧
      st.paired = true ∧ interleavePaired xs ys = .ok zs ∧
      st.fastqDataFrame = frameDF zs ∧
      ∀ i, i < n → dfFqRecord st.fastqDataFrame (2 * i) = asVals (fqRecord xs i) := by
  have hc1 : (listdir fs).contains fastq1 = true := contains_of_lookup _ _ _ hself
  have hcH : (listdir fs).contains (pyReplace fastq1 "_R2_" "_R1_") = true :=
    contains_of_lookup _ _ _ hmate
  have hres : resolveMates fs fastq1 none true =
      (pyReplace fastq1 "_R2_" "_R1_", fastq1, true) := by
    simp only [resolveMates, hnoR1, hR2, hcH, Bool.false_eq_true, if_false, if_true]
  obtain ⟨zs, hz, hlen, hrec⟩ := interleave_records n xs ys hx hy
  have hframe : frameFastq zs = .ok (frameDF zs) :=
    frame_ok zs (2 * n) (by omega)
  refine ⟨⟨pyReplace fastq1 "_R2_" "_R1_", fastq1, true, sampleOf fastq1, frameDF zs⟩,
    zs, ?_, rfl, rfl, rfl, hz, rfl, ?_⟩
  · simp only [fastqInit, hc1, not_true, hres, hmate, hself, hz, hframe,
      Bool.false_eq_true, if_false, if_true, reduceCtorEq]
  · intro i hi
    rw [dfFqRecord_frameDF, (hrec i hi).1]

/-! ### Column assignment: repeated derived-field computation overwrites -/

theorem lookup_map_replace {β : Type} (n m : String) (vs : β) (hne : m ≠ n) :
    ∀ cols : List (String × β),
      (cols.map fun kv => if kv.1 == n then (kv.1, vs) else kv).lookup m =
        cols.lookup m
  | [] => rfl
  | (k, v) :: cols => by
    by_cases hk : k = n
    · subst hk
      have hmk : (m == k) = false := beq_eq_false_iff_ne.mpr hne
      have hself : ((k, v).1 == k) = true := by simp
      simp only [List.map_cons, hself, if_true, List.lookup_cons, hmk]
      exact lookup_map_replace k m vs hne cols
    · have hf : ((k, v).1 == n) = false := beq_eq_false_iff_ne.mpr hk
      simp only [List.map_cons, hf, Bool.false_eq_true, if_false, List.lookup_cons]
      cases hm : (m == k) with
      | true => simp only [hm]
      | false =>
        simp only [hm]
        exact lookup_map_replace n m vs hne cols

theorem lookup_map_replace_self {β : Type} (n : String) (vs : β) :
    ∀ cols : List (String × β), (cols.lookup n).isSome = true →
      (cols.map fun kv => if kv.1 == n then (kv.1, vs) else kv).lookup n = some vs
  | [], h => by simp at h
  | (k, v) :: cols, h => by
    cases hk : (n == k) with
    | true =>
      have heq : n = k := eq_of_beq hk
      have hself : ((k, v).1 == n) = true := by simp [heq]
      simp only [List.map_cons, hself, if_true, List.lookup_cons, hk]
    | false =>
      have hkn : (k == n) = false := by
        have := ne_of_beq_false hk
        exact beq_eq_false_iff_ne.mpr fun he => this he.symm
      simp only [List.lookup_cons, hk] at h
      simp only [List.map_cons, hkn, Bool.false_eq_true, if_false, List.lookup_cons, hk]
      exact lookup_map_replace_self n vs cols h

theorem map_replace_of_lookup_none {β : Type} (n : String) (vs : β) :
    ∀ cols : List (String × β), cols.lookup n = none →
      cols.map (fun kv => if kv.1 == n then (kv.1, vs) else kv) = cols
  | [], _ => rfl
  | (k, v) :: cols, h => by
    cases hk : (n == k) with
    | true => simp [List.lookup_cons, hk] at h
    | false =>
      simp only [List.lookup_cons, hk] at h
      have hkn : ((k, v).1 == n) = false := by
        have := ne_of_beq_false hk
        exact beq_eq_false_iff_ne.mpr fun he => this he.symm
      simp only [List.map_cons, hkn, Bool.false_eq_true, if_false,
        map_replace_of_lookup_none n vs cols h]

theorem lookup_self_append {β : Type} (n : String) (vs : β) :
    ∀ cols : List (String × β), cols.lookup n = none →
      (cols ++ [(n, vs)]).lookup n = some vs
  | [], _ => by simp [List.lookup_cons]
  | (k, v) :: cols, h => by
    cases hk : (n == k) with
    | true => simp [List.lookup_cons, hk] at h
    | false =>
      simp only [List.lookup_cons, hk] at h
      simp only [List.cons_append, List.lookup_cons, hk]
      exact lookup_self_append n vs cols h

theorem lookup_append_ne {β : Type} (n m : String) (vs : β) (hne : m ≠ n) :
    ∀ cols : List (String × β), (cols ++ [(n, vs)]).lookup m = cols.lookup m
  | [] => by simp [List.lookup_cons, beq_eq_false_iff_ne.mpr hne]
  | (k, v) :: cols => by
    simp only [List.cons_append, List.lookup_cons]
    cases hm : (m == k) with
    | true => rfl
    | false => exact lookup_append_ne n m vs hne cols

theorem map_replace_idem {β : Type} (n : String) (vs : β)
    (cols : List (String × β)) :
    ((cols.map fun kv => if kv.1 == n then (kv.1, vs) else kv).map
      fun kv => if kv.1 == n then (kv.1, vs) else kv) =
    cols.map fun kv => if kv.1 == n then (kv.1, vs) else kv := by
  rw [List.map_map]
  refine List.map_congr_left fun kv _ => ?_
  by_cases hk : (kv.1 == n) = true
  · simp [Function.comp, hk]
  · simp [Function.comp, hk]

theorem getCol_setCol_ne (df : DataFrame) (n m : String) (vs : List Val)
    (hne : m ≠ n) : getCol (setCol df n vs) m = getCol df m := by
  unfold getCol setCol
  split
  · exact lookup_map_replace n m vs hne df.cols
  · exact lookup_append_ne n m vs hne df.cols

theorem setCol_setCol (df : DataFrame) (n : String) (vs : List Val) :
    setCol (setCol df n vs) n vs = setCol df n vs := by
  unfold setCol
  cases hl : (df.cols.lookup n).isSome with
  | true =>
    simp only [hl, if_true]
    have h2 : ((df.cols.map fun kv =>
        if kv.1 == n then (kv.1, vs) else kv).lookup n) = some vs :=
      lookup_map_replace_self n vs df.cols hl
    simp only [h2, Option.isSome_some, if_true]
    exact congrArg DataFrame.mk (map_replace_idem n vs df.cols)
  | false =>
    have hnone : df.cols.lookup n = none := by
      cases hx : df.cols.lookup n with
      | none => rfl
      | some v => rw [hx] at hl; simp at hl
    simp only [hl, Bool.false_eq_true, if_false]
    have h2 : ((df.cols ++ [(n, vs)]).lookup n) = some vs :=
      lookup_self_append n vs df.cols hnone
    simp only [h2, Option.isSome_some, if_true]
    refine congrArg DataFrame.mk ?_
    rw [List.map_append, map_replace_of_lookup_none n vs df.cols hnone]
    simp

/-! ### Claim evaluations at concrete inputs -/

/-- C1 counterexample: a valid 1-record FASTQ file whose quality line
`"FF,F"` contains a comma (Phred+33 quality 11).  The csv writer emits the
line as `FF\,F` — a byte-level change inside the line, not a
line-terminator difference — so the unrestricted byte-for-byte round trip
fails on the program. -/
theorem c1_counterexample :
    initWrite (fastqInit commaFs "comma.fastq" none false) =
      some (.out ["@r1", "ACGT", "+", "FF\\,F"]) ∧
    ["@r1", "ACGT", "+", "FF\\,F"] ≠ commaLines.map removeNewline := by decide

/-- C1 witness: the spec's 2-record example file (no commas or backslashes)
round-trips. -/
theorem c1_fastq_round_trip_witness :
    (readlines exFs "sampleA_S1_R1_001.fastq" = some exLines ∧
     exLines.length = 4 * 2 ∧
     ∀ l ∈ exLines, ∀ c ∈ l.data, (c == ',' || c == '\\') = false) ∧
    ∃ st, fastqInit exFs "sampleA_S1_R1_001.fastq" none false = .ok st ∧
      writeFASTQlines st.fastqDataFrame = .out (exLines.map removeNewline) :=
  ⟨⟨by decide, by decide, by decide⟩,
   c1_fastq_round_trip exFs "sampleA_S1_R1_001.fastq" exLines 2 (by decide)
     (by decide) (by decide)⟩

/-- C2 (code divergence): for every line sequence whose length is not a
multiple of the record arity (4 for FASTQ, 2 for FASTA), framing fails with
the raw pandas `ValueError` raised by the `DataFrame` constructor on
column lists of unequal lengths — the source defines no
`MalformedInputError` (and it does not silently truncate either). -/
theorem c2_framing_valueerror (ls1 ls2 : List String) (fs : Fs) (name : String)
    (h1 : ls1.length % 4 ≠ 0) (h2 : ls2.length % 2 = 1)
    (hread : readlines fs name = some ls2) :
    frameFastq ls1 = .error .valueError ∧ fastaInit fs name = .error .valueError := by
  constructor
  · have l0 := every4th_length ls1
    have l1 := every4th_length (ls1.drop 1)
    have l2 := every4th_length (ls1.drop 2)
    have l3 := every4th_length (ls1.drop 3)
    simp only [List.length_drop] at l1 l2 l3
    unfold frameFastq makeFastqDF
    rw [if_neg (fun hc => by
      obtain ⟨hc1, hc2, hc3⟩ := hc
      omega)]
  · have l0 := every2nd_length ls2
    have l1 := every2nd_length (ls2.drop 1)
    simp only [List.length_drop] at l1
    simp only [fastaInit, hread]
    rw [if_neg (by simp only [List.length_map]; omega)]

/-- C2 witness: a 5-line FASTQ file and a 3-line FASTA file both fail with
the pandas `ValueError`. -/
theorem c2_framing_valueerror_witness :
    ((["@r1\n", "ACGT\n", "+\n", "!!!!\n", "@r2\n"] : List String).length % 4 ≠ 0 ∧
     (([">n1\n", "ACGT\n", ">n2\n"] : List String).length % 2 = 1) ∧
     readlines badFaFs "bad.fasta" = some [">n1\n", "ACGT\n", ">n2\n"]) ∧
    frameFastq ["@r1\n", "ACGT\n", "+\n", "!!!!\n", "@r2\n"] = .error .valueError ∧
    fastaInit badFaFs "bad.fasta" = .error .valueError :=
  ⟨⟨by decide, by decide, by decide⟩,
   c2_framing_valueerror ["@r1\n", "ACGT\n", "+\n", "!!!!\n", "@r2\n"]
     [">n1\n", "ACGT\n", ">n2\n"] badFaFs "bad.fasta" (by decide) (by decide)
     (by decide)⟩

/-- C3 witness: interleaving the two 2-record example files. -/
theorem c3_interleave_invariant_witness :
    (exLines.length = 4 * 2 ∧ exLines2.length = 4 * 2) ∧
    ∃ zs, interleavePaired exLines exLines2 = .ok zs ∧
      (every4th zs).length = 2 * 2 ∧
      ∀ i, i < 2 →
        fqRecord zs (2 * i) = fqRecord exLines i ∧
        fqRecord zs (2 * i + 1) = fqRecord exLines2 i :=
  ⟨⟨by decide, by decide⟩,
   c3_interleave_invariant exLines exLines2 2 (by decide) (by decide)⟩

theorem interleave_mismatch (n : Nat) :
    ∀ (m : Nat) (xs ys : List String), xs.length = 4 * n → ys.length = 4 * m →
      (m < n → interleavePaired xs ys = .error .indexError) ∧
      (n ≤ m → ∃ zs, interleavePaired xs ys = .ok zs ∧ zs.length = 8 * n) := by
  induction n with
  | zero =>
    intro m xs ys hx hy
    have : xs = [] := List.eq_nil_of_length_eq_zero (by omega)
    subst this
    exact ⟨fun hc => absurd hc (by omega), fun _ => ⟨[], rfl, by simp⟩⟩
  | succ n ih =>
    intro m xs ys hx hy
    obtain ⟨a, b, c, d, xr, rfl, hxr⟩ := cons4_of_length xs (4 * n) (by omega)
    rcases m with _ | m'
    · have : ys = [] := List.eq_nil_of_length_eq_zero (by omega)
      subst this
      exact ⟨fun _ => rfl, fun hc => absurd hc (by omega)⟩
    · obtain ⟨e, f, g, h2, yr, rfl, hyr⟩ := cons4_of_length ys (4 * m') (by omega)
      obtain ⟨ihshort, ihlong⟩ := ih m' xr yr hxr hyr
      constructor
      · intro hlt
        rw [show interleavePaired (a :: b :: c :: d :: xr) (e :: f :: g :: h2 :: yr) =
            (interleavePaired xr yr).map
              (fun t => a :: b :: c :: d :: e :: f :: g :: h2 :: t) from rfl,
          ihshort (by omega)]
        rfl
      · intro hle
        obtain ⟨zr, hz, hlen⟩ := ihlong (by omega)
        refine ⟨a :: b :: c :: d :: e :: f :: g :: h2 :: zr, ?_,
          by simp only [List.length_cons, hlen]; omega⟩
        rw [show interleavePaired (a :: b :: c :: d :: xr) (e :: f :: g :: h2 :: yr) =
            (interleavePaired xr yr).map
              (fun t => a :: b :: c :: d :: e :: f :: g :: h2 :: t) from rfl,
          hz]
        rfl

/-- C4 (code divergence): for framed mate streams of unequal record counts
(`4 n` and `4 m` raw lines, `n ≠ m`) the interleave loop never raises a
typed `MateCountMismatchError`, which the source does not define: a shorter
reverse stream causes a raw `IndexError`, and a longer reverse stream is
silently truncated — the result has only `2 n` records, dropping the
reverse surplus. -/
theorem c4_unequal_mates (n m : Nat) (xs ys : List String)
    (hx : xs.length = 4 * n) (hy : ys.length = 4 * m) :
    (m < n → interleavePaired xs ys = .error .indexError) ∧
    (n < m → ∃ zs, interleavePaired xs ys = .ok zs ∧
      (every4th zs).length = 2 * n) := by
  obtain ⟨hshort, hlong⟩ := interleave_mismatch n m xs ys hx hy
  refine ⟨hshort, fun hlt => ?_⟩
  obtain ⟨zs, hz, hlen⟩ := hlong (by omega)
  exact ⟨zs, hz, by rw [every4th_length, hlen]; omega⟩

/-- C4 witness: a 2-record forward file with a 1-record reverse mate raises
`IndexError`; swapped, the interleave succeeds with only 2 records. -/
theorem c4_unequal_mates_witness :
    (exLines.length = 4 * 2 ∧ oneRec.length = 4 * 1 ∧ (1 : Nat) < 2) ∧
    interleavePaired exLines oneRec = .error .indexError ∧
    (∃ zs, interleavePaired oneRec exLines = .ok zs ∧
      (every4th zs).length = 2 * 1) :=
  ⟨⟨by decide, by decide, by decide⟩,
   (c4_unequal_mates 2 1 exLines oneRec (by decide) (by decide)).1 (by decide),
   (c4_unequal_mates 1 2 oneRec exLines (by decide) (by decide)).2 (by decide)⟩

/-- C5 (code divergence): for every table on which the average-quality
computation succeeds, computing it a second time never fails — the source
has no overwrite flag and no `DuplicateColumnError`: the second run
silently overwrites the `Avg Qual` column and returns the identical table
(same schema, same row order, every other column unchanged). -/
theorem c5_silent_overwrite (df df1 : DataFrame)
    (h : averageQuality df = .ok df1) : averageQuality df1 = .ok df1 := by
  unfold averageQuality at h ⊢
  cases hq : getCol df "Qual" with
  | none =>
    rw [hq] at h
    exact absurd h (by simp)
  | some ql =>
    simp only [hq] at h
    cases hs : avgQualVals ql with
    | error e =>
      simp only [hs] at h
      exact absurd h (by simp)
    | ok scores =>
      simp only [hs] at h
      have hdf1 : setCol df "Avg Qual" scores = df1 := by
        simpa using h
      subst hdf1
      have hq1 : getCol (setCol df "Avg Qual" scores) "Qual" = some ql := by
        rw [getCol_setCol_ne df "Avg Qual" "Qual" scores (by decide), hq]
      simp only [hq1, hs, setCol_setCol]

/-- C5 witness: the framed example file; `Avg Qual` is computed once giving
the table with the appended column, and the second computation returns the
same table unchanged. -/
theorem c5_silent_overwrite_witness :
    averageQuality (frameDF exLines) = .ok exAvgDF ∧
    averageQuality exAvgDF = .ok exAvgDF := by
  have h0 : pdMean [0, 0, 0, 0] = .q 0 := by
    norm_num [pdMean, List.sum_cons, List.sum_nil]
  have h42 : pdMean [42, 42, 42, 42] = .q 42 := by
    norm_num [pdMean, List.sum_cons, List.sum_nil]
  have step : averageQuality (frameDF exLines) =
      .ok ⟨[("Name", [.s "@r1\n", .s "@r2\n"]), ("Seq", [.s "ACGT\n", .s "TTTT\n"]),
            ("Direction", [.s "+\n", .s "+\n"]), ("Qual", [.s "!!!!\n", .s "KKKK\n"]),
            ("Avg Qual", [pdMean [0, 0, 0, 0], pdMean [42, 42, 42, 42]])]⟩ := rfl
  have h : averageQuality (frameDF exLines) = .ok exAvgDF := by
    rw [step, h0, h42]
    rfl
  exact ⟨h, c5_silent_overwrite (frameDF exLines) exAvgDF h⟩

/-- C6: the average-quality computation maps the record with quality string
`"!!!!"` to `0.0` and the record with quality string `"KKKK"` to `42.0`
(Phred+33: `'!' ↦ 0` … `'K' ↦ 42`, then the mean). -/
theorem c6_quality_scenario :
    averageQuality qualOnlyDF =
      .ok ⟨[("Qual", [.s "!!!!\n", .s "KKKK\n"]), ("Avg Qual", [.q 0, .q 42])]⟩ := by
  have h0 : pdMean [0, 0, 0, 0] = .q 0 := by
    norm_num [pdMean, List.sum_cons, List.sum_nil]
  have h42 : pdMean [42, 42, 42, 42] = .q 42 := by
    norm_num [pdMean, List.sum_cons, List.sum_nil]
  have step : averageQuality qualOnlyDF =
      .ok ⟨[("Qual", [.s "!!!!\n", .s "KKKK\n"]),
            ("Avg Qual", [pdMean [0, 0, 0, 0], pdMean [42, 42, 42, 42]])]⟩ := rfl
  rw [step, h0, h42]

theorem lookupScores_err :
    ∀ l : List Char, (∃ c ∈ l, qScoreDict c = none) →
      ∃ e, qScoreDict e = none ∧ lookupScores l = .error (.keyError e)
  | [], h => by simp at h
  | c :: r, h => by
    cases hc : qScoreDict c with
    | none => exact ⟨c, hc, by simp [lookupScores, hc]⟩
    | some v =>
      have hr : ∃ c' ∈ r, qScoreDict c' = none := by
        obtain ⟨c', hmem, hnone⟩ := h
        rcases List.mem_cons.mp hmem with rfl | hmem'
        · rw [hc] at hnone
          exact absurd hnone (by simp)
        · exact ⟨c', hmem', hnone⟩
      obtain ⟨e, he, hlook⟩ := lookupScores_err r hr
      exact ⟨e, he, by simp [lookupScores, hc, hlook, Except.map]⟩

/-- C7 (code divergence): whenever a record's (stripped) quality string
contains a character outside the `qScoreDict` table, the average-quality
computation raises the raw lookup `KeyError` for such a character — the
source defines no `UnknownSymbolError`. -/
theorem c7_unknown_symbol (item : String)
    (hbad : ∃ c ∈ (pyStrip item).data, qScoreDict c = none) :
    ∃ e, qScoreDict e = none ∧
      averageQuality ⟨[("Qual", [.s item])]⟩ = .error (.keyError e) := by
  obtain ⟨e, he, hlook⟩ := lookupScores_err (pyStrip item).data hbad
  refine ⟨e, he, ?_⟩
  have hg : getCol ⟨[("Qual", [.s item])]⟩ "Qual" = some [.s item] := rfl
  simp only [averageQuality, hg, avgQualVals, hlook]

/-- C7 witness: the quality string `"!!!L"` — `'L'` is one code point above
the table's `'K'` cap — raises the raw `KeyError`. -/
theorem c7_unknown_symbol_witness :
    (∃ c ∈ (pyStrip "!!!L\n").data, qScoreDict c = none) ∧
    ∃ e, qScoreDict e = none ∧
      averageQuality ⟨[("Qual", [.s "!!!L\n"])]⟩ = .error (.keyError e) :=
  ⟨⟨'L', by decide, rfl⟩, c7_unknown_symbol "!!!L\n" ⟨'L', by decide, rfl⟩⟩

/-- C8 (code divergence): a table whose schema is a rotation of
`(Name, Seq, Direction, Qual)` — so it does not start with the expected
prefix — serializes successfully (columns are fetched by name, order is
ignored), and a table missing a required column makes `writeFASTQ` /
`writeFASTA` return an apology string instead of raising; no
`SchemaMismatchError` exists in the source. -/
theorem c8_no_schema_check :
    schema wrongOrderDF = ["Qual", "Name", "Seq", "Direction"] ∧
    writeFASTQlines wrongOrderDF =
      .out ["@r1", "ACGT", "+", "!!!!", "@r2", "TTTT", "+", "KKKK"] ∧
    writeFASTQlines missingQualDF =
      .message "This doesn't appear to be a FastqFile object." ∧
    writeFASTAlines qualOnlyDF =
      .message "This doesn't appear to be a FastaFile object." := by decide

/-- C9 (code divergence): for every path missing from the directory,
`FastqFile.__init__` prints a warning and returns early without raising
anything (the object gets no data frame), and `FastaFile.__init__` lets
`open()` raise the builtin `FileNotFoundError`.  Neither raises a typed
`NotFoundError` of this library. -/
theorem c9_missing_path (fs : Fs) (name1 name2 : String)
    (fastq2 : Option String) (paired : Bool)
    (h1 : (listdir fs).contains name1 = false)
    (h2 : readlines fs name2 = none) :
    fastqInit fs name1 fastq2 paired = .notFound ∧
    fastaInit fs name2 = .error .fileNotFound := by
  constructor
  · simp only [fastqInit, h1, Bool.false_eq_true, not_false_iff, if_true]
  · simp only [fastaInit, h2]

/-- C9 witness: a directory without `missing.fastq` / `missing.fasta`. -/
theorem c9_missing_path_witness :
    ((listdir exFs).contains "missing.fastq" = false ∧
     readlines exFs "missing.fasta" = none) ∧
    fastqInit exFs "missing.fastq" none false = .notFound ∧
    fastaInit exFs "missing.fasta" = .error .fileNotFound :=
  ⟨⟨by decide, by decide⟩,
   c9_missing_path exFs "missing.fastq" "missing.fasta" none false (by decide)
     (by decide)⟩

/-- C10 counterexample: the file name `a_R1_b_R2_c.fastq` contains `_R2_`
and its `_R1_` counterpart (`a_R1_b_R1_c.fastq`) is in the listing, yet the
constructor takes the `_R1_` branch first, looks for `a_R2_b_R2_c.fastq`,
fails, and degrades to unpaired mode without any swap. -/
theorem c10_counterexample :
    strContains "a_R1_b_R2_c.fastq" "_R2_" = true ∧
    (listdir dualTokenFs).contains
      (pyReplace "a_R1_b_R2_c.fastq" "_R2_" "_R1_") = true ∧
    mateFields (fastqInit dualTokenFs "a_R1_b_R2_c.fastq" none true) =
      some ("a_R1_b_R2_c.fastq", "None", false) := by decide

/-- C10 witness: a reverse-named file with its forward mate present. -/
theorem c10_r2_swap_witness :
    (strContains "s_R2_001.fastq" "_R1_" = false ∧
     strContains "s_R2_001.fastq" "_R2_" = true ∧
     readlines r2Fs "s_R2_001.fastq" = some exLines2 ∧
     readlines r2Fs (pyReplace "s_R2_001.fastq" "_R2_" "_R1_") = some exLines ∧
     exLines.length = 4 * 2 ∧ exLines2.length = 4 * 2) ∧
    ∃ st zs, fastqInit r2Fs "s_R2_001.fastq" none true = .ok st ∧
      st.fastq1 = pyReplace "s_R2_001.fastq" "_R2_" "_R1_" ∧
      st.fastq2 = "s_R2_001.fastq" ∧ st.paired = true ∧
      interleavePaired exLines exLines2 = .ok zs ∧
      st.fastqDataFrame = frameDF zs ∧
      ∀ i, i < 2 → dfFqRecord st.fastqDataFrame (2 * i) = asVals (fqRecord exLines i) :=
  ⟨⟨by decide, by decide, by decide, by decide, by decide, by decide⟩,
   c10_r2_swap r2Fs "s_R2_001.fastq" exLines exLines2 2 (by decide) (by decide)
     (by decide) (by decide) (by decide) (by decide)⟩

end FastTools
